import Mathlib

/-!
Shallow embedding of `RedisChatMessageStore`
(src/11-external-persistence/redis_chat_message_store.py).

The remote Redis instance is modelled as a total map from keys to stored
lists of encoded strings (a missing key and an empty list are
observationally identical through LRANGE).  Each store method is a Lean
function on the store's configuration record and the database; methods
additionally return the trace of Redis commands they issue, so that
"performs no network call" claims are statable.  The message type and its
JSON codec live outside this file's source (agent_framework / json), so
they are parameters: `encode : Msg → String`, `decode : String → Option Msg`,
with decode failure standing for a JSON/validation exception.
-/

namespace RedisStore

/-- A JSON-like value as stored in the serialized-state payload
(pydantic `model_dump` output restricted to the field types of
`RedisStoreState`). -/
inductive JsonVal where
  | str : String → JsonVal
  | num : Nat → JsonVal
  | null : JsonVal
  deriving DecidableEq, Repr

/-- The error taxonomy of the spec: `ValueError` at construction is
`configurationError`, a decode failure in `list_messages` is
`corruptEntryError`, a pydantic validation failure in `deserialize_state`
is `stateError`. -/
inductive StoreError where
  | configurationError : StoreError
  | corruptEntryError : StoreError
  | stateError : StoreError
  deriving DecidableEq, Repr

/-- One Redis command issued over the network. -/
inductive RedisOp where
  | rpush : String → List String → RedisOp
  | llen : String → RedisOp
  | ltrim : String → Int → Int → RedisOp
  | lrange : String → Int → Int → RedisOp
  | del : String → RedisOp
  deriving DecidableEq, Repr

/-- The remote Redis list store: every key holds a list of encoded
entries (absent key = empty list). -/
abbrev RedisDB := String → List String

/-- A Redis instance holding no lists at all. -/
def emptyDB : RedisDB := fun _ => []

/-- Redis index resolution: a negative index counts from the end of the
list (`-1` is the last element). -/
def resolveIdx (len : Nat) (i : Int) : Int :=
  if i < 0 then (len : Int) + i else i

/-- Redis LRANGE/LTRIM range semantics: resolve both endpoints, clamp the
start at 0, return the inclusive slice (empty when the range is inverted
or entirely past the end). -/
def rangeSlice (l : List String) (start stop : Int) : List String :=
  let s := resolveIdx l.length start
  let e := resolveIdx l.length stop
  let s2 := if s < 0 then (0 : Int) else s
  if e < s2 then [] else (l.take (e.toNat + 1)).drop s2.toNat

/-- RPUSH key vals: append the values at the tail of the list at `key`. -/
def rpushDB (db : RedisDB) (key : String) (vals : List String) : RedisDB :=
  fun k => if k = key then db key ++ vals else db k

/-- LTRIM key start stop: keep only the elements in the resolved range. -/
def ltrimDB (db : RedisDB) (key : String) (start stop : Int) : RedisDB :=
  fun k => if k = key then rangeSlice (db key) start stop else db k

/-- DEL key: remove the list stored at `key`. -/
def delDB (db : RedisDB) (key : String) : RedisDB :=
  fun k => if k = key then [] else db k

/-- The configuration record of a `RedisChatMessageStore` instance
(the fields assigned in `__init__`; the redis client itself is represented
by `redis_url`, the target it was built from). -/
structure RedisChatMessageStore where
  redis_url : String
  thread_id : String
  keyPrefix : String
  max_messages : Option Nat
  deriving DecidableEq, Repr

/-- `redis_key` property: `f"{self.key_prefix}:{self.thread_id}"`. -/
def redis_key (s : RedisChatMessageStore) : String :=
  s.keyPrefix ++ ":" ++ s.thread_id

/-- `__init__`: fails when `redis_url` is `None`; a falsy (`None` or empty)
`thread_id` is replaced by `f"thread_{uuid4()}"`, whose fresh UUID is the
`uuid` parameter.  `redis.from_url` opens no connection, so the op trace of
construction is always empty. -/
def mkStore (redis_url : Option String) (thread_id : Option String)
    (keyPrefix : String) (max_messages : Option Nat) (uuid : String) :
    Except StoreError RedisChatMessageStore × List RedisOp :=
  match redis_url with
  | none => (Except.error StoreError.configurationError, [])
  | some url =>
    let tid :=
      match thread_id with
      | some t => if t.isEmpty then "thread_" ++ uuid else t
      | none => "thread_" ++ uuid
    (Except.ok ⟨url, tid, keyPrefix, max_messages⟩, [])

section Codec

variable {Msg : Type}

/-- `add_messages`: no-op on an empty sequence; otherwise RPUSH the encoded
messages, then, when a maximum is configured, LLEN and conditionally LTRIM
to the newest `max_messages` entries. -/
def add_messages (encode : Msg → String) (store : RedisChatMessageStore)
    (db : RedisDB) (messages : List Msg) : RedisDB × List RedisOp :=
  if messages.isEmpty then (db, [])
  else
    let key := redis_key store
    let serialized := messages.map encode
    let db1 := rpushDB db key serialized
    match store.max_messages with
    | none => (db1, [RedisOp.rpush key serialized])
    | some k =>
      let current_count := (db1 key).length
      if current_count > k then
        (ltrimDB db1 key (-(k : Int)) (-1),
         [RedisOp.rpush key serialized, RedisOp.llen key,
          RedisOp.ltrim key (-(k : Int)) (-1)])
      else (db1, [RedisOp.rpush key serialized, RedisOp.llen key])

/-- Iterated `add_messages`: one call per batch, in order. -/
def appendAll (encode : Msg → String) (store : RedisChatMessageStore)
    (db : RedisDB) (batches : List (List Msg)) : RedisDB :=
  batches.foldl (fun d b => (add_messages encode store d b).1) db

/-- The decode loop of `list_messages`: each entry is deserialized in
order; the first failure aborts the whole read with `corruptEntryError`. -/
def decodeAll (decode : String → Option Msg) :
    List String → Except StoreError (List Msg)
  | [] => Except.ok []
  | s :: rest =>
    match decode s with
    | none => Except.error StoreError.corruptEntryError
    | some m =>
      match decodeAll decode rest with
      | Except.error e => Except.error e
      | Except.ok ms => Except.ok (m :: ms)

/-- `list_messages`: LRANGE key 0 -1, then decode every entry. -/
def list_messages (decode : String → Option Msg)
    (store : RedisChatMessageStore) (db : RedisDB) :
    Except StoreError (List Msg) × List RedisOp :=
  (decodeAll decode (rangeSlice (db (redis_key store)) 0 (-1)),
   [RedisOp.lrange (redis_key store) 0 (-1)])

end Codec

/-- `serialize_state`: `RedisStoreState(...).model_dump()`, the payload
carrying the four configuration fields (no message content). -/
def serialize_state (s : RedisChatMessageStore) : List (String × JsonVal) :=
  [("thread_id", JsonVal.str s.thread_id),
   ("redis_url", JsonVal.str s.redis_url),
   ("key_prefix", JsonVal.str s.keyPrefix),
   ("max_messages",
    match s.max_messages with
    | some n => JsonVal.num n
    | none => JsonVal.null)]

/-- First value bound to `key` in a payload (dict field access). -/
def getField : List (String × JsonVal) → String → Option JsonVal
  | [], _ => none
  | (k, v) :: rest, key => if k = key then some v else getField rest key

/-- Validation of an optional-string pydantic field (`str | None = None`):
absent or null means `None`; a number is a type error. -/
def optStrField (p : List (String × JsonVal)) (key : String) :
    Option (Option String) :=
  match getField p key with
  | none => some none
  | some JsonVal.null => some none
  | some (JsonVal.str s) => some (some s)
  | some (JsonVal.num _) => none

/-- Validation of an optional-nat pydantic field (`int | None = None`). -/
def optNatField (p : List (String × JsonVal)) (key : String) :
    Option (Option Nat) :=
  match getField p key with
  | none => some none
  | some JsonVal.null => some none
  | some (JsonVal.num n) => some (some n)
  | some (JsonVal.str _) => none

/-- Validation of a defaulted string pydantic field (`str = dflt`). -/
def strFieldOr (p : List (String × JsonVal)) (key dflt : String) :
    Option String :=
  match getField p key with
  | none => some dflt
  | some (JsonVal.str s) => some s
  | some _ => none

/-- The validated `RedisStoreState` pydantic model. -/
structure RedisStoreState where
  thread_id : String
  redis_url : Option String
  keyPrefix : String
  max_messages : Option Nat
  deriving DecidableEq, Repr

/-- `RedisStoreState.model_validate`: `thread_id` is required (a missing
field or a wrong type is a validation error); the other fields default. -/
def validateState (p : List (String × JsonVal)) : Option RedisStoreState :=
  match getField p "thread_id" with
  | some (JsonVal.str t) =>
    match optStrField p "redis_url", strFieldOr p "key_prefix" "chat_messages",
        optNatField p "max_messages" with
    | some ru, some kp, some mm => some ⟨t, ru, kp, mm⟩
    | _, _, _ => none
  | _ => none

/-- `deserialize_state`: a falsy (empty) payload is skipped silently;
otherwise the payload is validated (failure = `stateError`), the three
configuration fields are overwritten, and the client is rebuilt exactly
when the validated `redis_url` is truthy and differs from the current
one. -/
def deserialize_state (store : RedisChatMessageStore)
    (p : List (String × JsonVal)) :
    Except StoreError RedisChatMessageStore :=
  if p.isEmpty then Except.ok store
  else
    match validateState p with
    | none => Except.error StoreError.stateError
    | some st =>
      let base : RedisChatMessageStore :=
        { store with thread_id := st.thread_id, keyPrefix := st.keyPrefix,
                     max_messages := st.max_messages }
      match st.redis_url with
      | some u =>
        if ¬ u.isEmpty ∧ u ≠ store.redis_url then
          Except.ok { base with redis_url := u }
        else Except.ok base
      | none => Except.ok base

/-- The document returned by `serialize`: an always-empty `messages` list
plus the configuration under `store_metadata`. -/
structure SerializedDoc where
  messages : List String
  store_metadata : List (String × JsonVal)
  deriving DecidableEq, Repr

/-- `serialize`: `{"messages": [], "store_metadata": state}`. -/
def serialize (s : RedisChatMessageStore) : SerializedDoc :=
  { messages := [], store_metadata := serialize_state s }

/-- `clear`: DEL the thread's key; the instance's own fields are not
touched, so the store record is returned unchanged. -/
def clear (s : RedisChatMessageStore) (db : RedisDB) :
    (RedisChatMessageStore × RedisDB) × List RedisOp :=
  ((s, delDB db (redis_key s)), [RedisOp.del (redis_key s)])

/-! ### Concrete instances used to evaluate the development -/

/-- A concrete message codec (a two-message alphabet suffices to observe
ordering and corruption): any string outside the codec's range fails to
decode, standing for malformed JSON. -/
def encB : Bool → String := fun b => if b then "t" else "f"

/-- Decoder matching `encB`; every other string is a corrupt entry. -/
def decB : String → Option Bool := fun s =>
  if s = "t" then some true else if s = "f" then some false else none

/-- A store capped at 2 messages. -/
def sampleStore : RedisChatMessageStore :=
  { redis_url := "redis:6379", thread_id := "t1",
    keyPrefix := "chat_messages", max_messages := some 2 }

/-- An uncapped store on the same connection target. -/
def sampleStoreNoMax : RedisChatMessageStore :=
  { redis_url := "redis:6379", thread_id := "t1",
    keyPrefix := "chat_messages", max_messages := none }

/-- A freshly constructed store on the same connection target but with its
own generated identity. -/
def freshStore : RedisChatMessageStore :=
  { redis_url := "redis:6379", thread_id := "fresh",
    keyPrefix := "other", max_messages := none }

/-- A database whose stored list for `sampleStore` holds one well-formed
entry and one entry that does not decode. -/
def corruptDB : RedisDB :=
  fun k => if k = redis_key sampleStore then ["t", "zz"] else []

/-! ### Redis list-range semantics -/

theorem rangeSlice_all (l : List String) : rangeSlice l 0 (-1) = l := by
  cases l with
  | nil => rfl
  | cons a t =>
    simp only [rangeSlice, resolveIdx, List.length_cons]
    have h1 : ((-1 : Int) < 0) := by omega
    have h2 : ¬ ((0 : Int) < 0) := by omega
    rw [if_pos h1, if_neg h2, if_neg h2]
    have h3 : ¬ ((((t.length + 1 : Nat)) : Int) + -1 < 0) := by omega
    rw [if_neg h3]
    have h4 : ((((t.length + 1 : Nat)) : Int) + -1).toNat + 1 = t.length + 1 := by
      omega
    rw [h4]
    have h5 : (a :: t).length = t.length + 1 := rfl
    rw [show ((0 : Int).toNat) = 0 from rfl, List.drop_zero, ← h5, List.take_length]

theorem rangeSlice_last (l : List String) (k : Nat) (hk : 0 < k)
    (hlen : k < l.length) :
    rangeSlice l (-(k : Int)) (-1) = l.drop (l.length - k) := by
  simp only [rangeSlice, resolveIdx]
  have h1 : (-(k : Int) < 0) := by omega
  have h2 : ((-1 : Int) < 0) := by omega
  rw [if_pos h1, if_pos h2]
  have h3 : ¬ ((l.length : Int) + -k < 0) := by omega
  rw [if_neg h3]
  have h4 : ¬ ((l.length : Int) + -1 < (l.length : Int) + -k) := by omega
  rw [if_neg h4]
  have h5 : ((l.length : Int) + -1).toNat + 1 = l.length := by omega
  rw [h5, List.take_length]
  congr 1
  omega

theorem rpushDB_key (db : RedisDB) (key : String) (vals : List String) :
    rpushDB db key vals key = db key ++ vals := by
  simp [rpushDB]

theorem delDB_key (db : RedisDB) (key : String) : delDB db key key = [] := by
  simp [delDB]

/-! ### `add_messages` characterisation -/

/-- Keeping the last `k` elements commutes with appending more elements. -/
theorem drop_sub_append {α : Type} (l m : List α) (k : Nat) :
    (l.drop (l.length - k) ++ m).drop
        ((l.drop (l.length - k)).length + m.length - k)
      = (l ++ m).drop (l.length + m.length - k) := by
  by_cases h : l.length ≤ k
  · have h0 : l.length - k = 0 := by omega
    rw [h0, List.drop_zero]
  · have hd : (l.drop (l.length - k)).length = k := by
      rw [List.length_drop]; omega
    rw [hd]
    have h1 : k + m.length - k = m.length := by omega
    rw [h1]
    have habs : l ++ m = l.take (l.length - k) ++ (l.drop (l.length - k) ++ m) := by
      rw [← List.append_assoc, List.take_append_drop]
    rw [habs]
    have hidx : l.length + m.length - k = (l.take (l.length - k)).length + m.length := by
      rw [List.length_take]; omega
    rw [hidx, List.drop_append]

section CodecLemmas

variable {Msg : Type}

theorem add_messages_key_some (encode : Msg → String)
    (store : RedisChatMessageStore) (db : RedisDB) (ms : List Msg) (k : Nat)
    (hmax : store.max_messages = some k) (hk : 0 < k) (hne : ms ≠ []) :
    (add_messages encode store db ms).1 (redis_key store)
      = (db (redis_key store) ++ ms.map encode).drop
          ((db (redis_key store)).length + ms.length - k) := by
  have hlen : (db (redis_key store) ++ ms.map encode).length
      = (db (redis_key store)).length + ms.length := by
    rw [List.length_append, List.length_map]
  simp only [add_messages, hmax]
  rw [if_neg (by simpa [List.isEmpty_iff] using hne)]
  by_cases hgt : (rpushDB db (redis_key store) (ms.map encode) (redis_key store)).length > k
  · rw [if_pos hgt]
    rw [rpushDB_key] at hgt
    simp only [ltrimDB, rpushDB_key, eq_self_iff_true, if_true]
    rw [rangeSlice_last _ k hk (by omega), hlen]
  · rw [if_neg hgt]
    rw [rpushDB_key] at hgt
    rw [hlen] at hgt
    show rpushDB db (redis_key store) (ms.map encode) (redis_key store) = _
    rw [rpushDB_key]
    have h0 : (db (redis_key store)).length + ms.length - k = 0 := by omega
    rw [h0, List.drop_zero]

theorem add_messages_key_none (encode : Msg → String)
    (store : RedisChatMessageStore) (db : RedisDB) (ms : List Msg)
    (hmax : store.max_messages = none) :
    (add_messages encode store db ms).1 (redis_key store)
      = db (redis_key store) ++ ms.map encode := by
  simp only [add_messages, hmax]
  by_cases hne : ms.isEmpty
  · rw [if_pos hne]
    rw [List.isEmpty_iff] at hne
    subst hne
    simp
  · rw [if_neg hne]
    exact rpushDB_key db (redis_key store) (ms.map encode)

theorem appendAll_key_some (encode : Msg → String)
    (store : RedisChatMessageStore) (k : Nat)
    (hmax : store.max_messages = some k) (hk : 0 < k) :
    ∀ batches : List (List Msg), batches ≠ [] → (∀ b ∈ batches, b ≠ []) →
      ∀ db : RedisDB, appendAll encode store db batches (redis_key store)
        = (db (redis_key store) ++ batches.flatten.map encode).drop
            ((db (redis_key store)).length + batches.flatten.length - k) := by
  intro batches
  induction batches with
  | nil => intro h; cases h rfl
  | cons b bs ih =>
    intro _ hne db
    have hb : b ≠ [] := hne b (List.mem_cons_self b bs)
    have hadd := add_messages_key_some encode store db b k hmax hk hb
    cases bs with
    | nil =>
      simp only [appendAll, List.foldl_cons, List.foldl_nil]
      simpa using hadd
    | cons b2 bs2 =>
      have hne2 : ∀ x ∈ b2 :: bs2, x ≠ [] := fun x hx =>
        hne x (List.mem_cons_of_mem b hx)
      have hstep : appendAll encode store db (b :: b2 :: bs2)
          = appendAll encode store (add_messages encode store db b).1 (b2 :: bs2) := by
        simp [appendAll]
      rw [hstep, ih (by simp) hne2 (add_messages encode store db b).1, hadd]
      have hml : ((b :: b2 :: bs2).flatten).map encode
          = b.map encode ++ ((b2 :: bs2).flatten).map encode := by
        rw [List.flatten_cons, List.map_append]
      rw [hml, ← List.append_assoc]
      have hds := drop_sub_append (db (redis_key store) ++ b.map encode)
        (((b2 :: bs2).flatten).map encode) k
      simp only [List.length_append, List.length_map] at hds
      rw [hds]
      congr 1
      have hfl : ((b :: b2 :: bs2).flatten).length
          = b.length + ((b2 :: bs2).flatten).length := by
        rw [List.flatten_cons, List.length_append]
      omega

theorem appendAll_key_none (encode : Msg → String)
    (store : RedisChatMessageStore)
    (hmax : store.max_messages = none) :
    ∀ batches : List (List Msg), ∀ db : RedisDB,
      appendAll encode store db batches (redis_key store)
        = db (redis_key store) ++ batches.flatten.map encode := by
  intro batches
  induction batches with
  | nil => intro db; simp [appendAll]
  | cons b bs ih =>
    intro db
    have hstep : appendAll encode store db (b :: bs)
        = appendAll encode store (add_messages encode store db b).1 bs := by
      simp [appendAll]
    rw [hstep, ih, add_messages_key_none encode store db b hmax]
    rw [List.flatten_cons, List.map_append, List.append_assoc]

theorem flatten_singletons {α : Type} (l : List α) :
    (l.map fun a => [a]).flatten = l := by
  induction l with
  | nil => rfl
  | cons a t ih => simp [ih]

theorem decodeAll_map_encode (encode : Msg → String) (decode : String → Option Msg)
    (hdec : ∀ m, decode (encode m) = some m) :
    ∀ l : List Msg, decodeAll decode (l.map encode) = Except.ok l := by
  intro l
  induction l with
  | nil => rfl
  | cons m t ih =>
    rw [List.map_cons]
    simp only [decodeAll, hdec m, ih]

/-- A single message appended to an empty key is stored alone, whatever the
configured maximum (also when it is 0, since `LTRIM key -0 -1` keeps the
whole list). -/
theorem add_single_on_empty (encode : Msg → String)
    (store : RedisChatMessageStore) (db : RedisDB) (m : Msg)
    (hempty : db (redis_key store) = []) :
    (add_messages encode store db [m]).1 (redis_key store) = [encode m] := by
  cases hmm : store.max_messages with
  | none =>
    rw [add_messages_key_none encode store db [m] hmm, hempty]
    rfl
  | some k =>
    cases k with
    | zero =>
      simp only [add_messages, hmm]
      rw [if_neg (by simp)]
      rw [if_pos (by rw [rpushDB_key, hempty]; simp)]
      simp only [ltrimDB, eq_self_iff_true, if_true, rpushDB_key, hempty]
      exact rangeSlice_all [encode m]
    | succ k2 =>
      rw [add_messages_key_some encode store db [m] (k2 + 1) hmm (by omega)
        (by simp), hempty]
      simp

theorem decodeAll_mem_none (decode : String → Option Msg) (l : List String)
    (e : String) (hmem : e ∈ l) (hbad : decode e = none) :
    decodeAll decode l = Except.error StoreError.corruptEntryError := by
  induction l with
  | nil => cases hmem
  | cons s t ih =>
    rcases List.mem_cons.mp hmem with h | h
    · subst h
      simp only [decodeAll, hbad]
    · cases hds : decode s with
      | none => simp only [decodeAll, hds]
      | some m => simp only [decodeAll, hds, ih h]

end CodecLemmas

/-! ### The claims -/

/-- C1: for a log configured with a positive maximum `k`, after any append
the stored count is at most `k`, and after appending `n > k` messages to an
empty log — in one batch or one at a time — `list_messages` returns exactly
the newest `k` messages in their original relative order (the oldest excess
is discarded, never the newest). -/
theorem c1_bound_enforcement {Msg : Type} (encode : Msg → String)
    (decode : String → Option Msg) (store : RedisChatMessageStore) (k : Nat)
    (hk : 0 < k) (hmax : store.max_messages = some k)
    (hdec : ∀ m, decode (encode m) = some m)
    (ms : List Msg) (hn : k < ms.length) (db : RedisDB) :
    (((add_messages encode store db ms).1) (redis_key store)).length ≤ k
    ∧ (list_messages decode store
          (add_messages encode store emptyDB ms).1).1
        = Except.ok (ms.drop (ms.length - k))
    ∧ (list_messages decode store
          (appendAll encode store emptyDB (ms.map fun m => [m]))).1
        = Except.ok (ms.drop (ms.length - k)) := by
  have hne : ms ≠ [] := by
    intro h
    rw [h] at hn
    exact absurd hn (Nat.not_lt_zero k)
  refine ⟨?_, ?_, ?_⟩
  · rw [add_messages_key_some encode store db ms k hmax hk hne]
    rw [List.length_drop, List.length_append, List.length_map]
    omega
  · show decodeAll decode (rangeSlice
        ((add_messages encode store emptyDB ms).1 (redis_key store)) 0 (-1)) = _
    rw [rangeSlice_all, add_messages_key_some encode store emptyDB ms k hmax hk hne]
    show decodeAll decode (([] ++ ms.map encode).drop
        (([] : List String).length + ms.length - k)) = _
    rw [List.nil_append, List.length_nil, Nat.zero_add, ← List.map_drop]
    exact decodeAll_map_encode encode decode hdec (ms.drop (ms.length - k))
  · have hb1 : (ms.map fun m => [m]) ≠ [] := by
      simpa using hne
    have hb2 : ∀ b ∈ ms.map fun m => [m], b ≠ [] := by
      intro b hb
      simp only [List.mem_map] at hb
      obtain ⟨a, _, ha⟩ := hb
      rw [← ha]
      simp
    show decodeAll decode (rangeSlice
        ((appendAll encode store emptyDB (ms.map fun m => [m]))
          (redis_key store)) 0 (-1)) = _
    rw [rangeSlice_all]
    rw [appendAll_key_some encode store k hmax hk (ms.map fun m => [m])
        hb1 hb2 emptyDB]
    rw [flatten_singletons]
    show decodeAll decode (([] ++ ms.map encode).drop
        (([] : List String).length + ms.length - k)) = _
    rw [List.nil_append, List.length_nil, Nat.zero_add, ← List.map_drop]
    exact decodeAll_map_encode encode decode hdec (ms.drop (ms.length - k))

/-- C1 witness: `sampleStore` is capped at 2; appending `[true, false, true]`
leaves at most 2 stored entries and reading returns the last two messages. -/
theorem c1_witness :
    (((add_messages encB sampleStore emptyDB [true, false, true]).1)
        (redis_key sampleStore)).length ≤ 2
    ∧ (list_messages decB sampleStore
          (add_messages encB sampleStore emptyDB [true, false, true]).1).1
        = Except.ok ([true, false, true].drop ([true, false, true].length - 2))
    ∧ (list_messages decB sampleStore
          (appendAll encB sampleStore emptyDB
            ([true, false, true].map fun m => [m]))).1
        = Except.ok ([true, false, true].drop ([true, false, true].length - 2)) :=
  c1_bound_enforcement encB decB sampleStore 2 (by decide) rfl (by decide)
    [true, false, true] (by decide) emptyDB

/-- C2: with no maximum configured, appending the batches `b1..bn` in order
to an initially empty key makes `list_messages` return their concatenation,
oldest first. -/
theorem c2_append_read_order {Msg : Type} (encode : Msg → String)
    (decode : String → Option Msg) (store : RedisChatMessageStore)
    (hmax : store.max_messages = none)
    (hdec : ∀ m, decode (encode m) = some m)
    (batches : List (List Msg)) :
    (list_messages decode store (appendAll encode store emptyDB batches)).1
      = Except.ok batches.flatten := by
  show decodeAll decode (rangeSlice
      ((appendAll encode store emptyDB batches) (redis_key store)) 0 (-1)) = _
  rw [rangeSlice_all, appendAll_key_none encode store hmax batches emptyDB]
  show decodeAll decode ([] ++ batches.flatten.map encode) = _
  rw [List.nil_append]
  exact decodeAll_map_encode encode decode hdec batches.flatten

/-- C2 witness: three messages over two append calls are read back in
order. -/
theorem c2_witness :
    (list_messages decB sampleStoreNoMax
        (appendAll encB sampleStoreNoMax emptyDB [[true], [false, true]])).1
      = Except.ok ([[true], [false, true]] : List (List Bool)).flatten :=
  c2_append_read_order encB decB sampleStoreNoMax rfl (by decide)
    [[true], [false, true]]

/-- C3: appending the empty sequence issues no Redis command, leaves the
database untouched, and therefore leaves the result of `list_messages`
unchanged. -/
theorem c3_empty_append_noop {Msg : Type} (encode : Msg → String)
    (decode : String → Option Msg) (store : RedisChatMessageStore)
    (db : RedisDB) :
    add_messages encode store db ([] : List Msg) = (db, [])
    ∧ list_messages decode store
        (add_messages encode store db ([] : List Msg)).1
      = list_messages decode store db :=
  ⟨rfl, rfl⟩

/-- C4: construction with an absent connection target fails with the
configuration error; with any non-empty target it succeeds; construction
never issues a Redis command. -/
theorem c4_construction_validation (url : String) (hurl : url ≠ "")
    (tid : Option String) (kp : String) (mm : Option Nat) (uuid : String) :
    (mkStore none tid kp mm uuid).1
        = Except.error StoreError.configurationError
    ∧ (mkStore none tid kp mm uuid).2 = []
    ∧ (∃ s, (mkStore (some url) tid kp mm uuid).1 = Except.ok s)
    ∧ (mkStore (some url) tid kp mm uuid).2 = [] :=
  ⟨rfl, rfl, ⟨_, rfl⟩, rfl⟩

/-- C4 witness: construction at a concrete non-empty URL. -/
theorem c4_witness :
    (mkStore none (some "t1") "chat_messages" (some 2) "u1").1
        = Except.error StoreError.configurationError
    ∧ (mkStore none (some "t1") "chat_messages" (some 2) "u1").2 = []
    ∧ (∃ s, (mkStore (some "redis:6379") (some "t1") "chat_messages"
          (some 2) "u1").1 = Except.ok s)
    ∧ (mkStore (some "redis:6379") (some "t1") "chat_messages"
          (some 2) "u1").2 = [] :=
  c4_construction_validation "redis:6379" (by decide) (some "t1")
    "chat_messages" (some 2) "u1"

/-- C5 counterexample: the claim says an empty record makes `import_state`
fail with a state error, but a falsy payload is skipped before validation,
so the call returns successfully and changes nothing. -/
theorem c5_counterexample :
    deserialize_state sampleStore [] = Except.ok sampleStore
    ∧ deserialize_state sampleStore [] ≠ Except.error StoreError.stateError :=
  ⟨rfl, fun h => Except.noConfusion h⟩

/-- C5 amended: a non-empty record missing the required thread identifier
makes `deserialize_state` fail with the state error (leaving the instance
unchanged, as no field is assigned on the error path); an empty record is
silently ignored, also leaving the configuration unchanged. -/
theorem c5_state_validation (store : RedisChatMessageStore)
    (p : List (String × JsonVal)) (hne : p ≠ [])
    (hmissing : getField p "thread_id" = none) :
    deserialize_state store p = Except.error StoreError.stateError
    ∧ deserialize_state store [] = Except.ok store := by
  constructor
  · unfold deserialize_state
    rw [if_neg (by simpa [List.isEmpty_iff] using hne)]
    unfold validateState
    rw [hmissing]
  · rfl

/-- C5 witness: a record carrying only a key prefix has no thread
identifier and is rejected. -/
theorem c5_witness :
    deserialize_state sampleStore [("key_prefix", JsonVal.str "x")]
        = Except.error StoreError.stateError
    ∧ deserialize_state sampleStore [] = Except.ok sampleStore :=
  c5_state_validation sampleStore [("key_prefix", JsonVal.str "x")]
    (by simp) rfl

/-- C6: `clear` deletes the thread's key (one DEL command), after which
`list_messages` is empty; the store's configuration — hence
`serialize_state` — is unchanged, and a subsequent append recreates the
key so the new message is read back. -/
theorem c6_clear_preserves_identity {Msg : Type} (encode : Msg → String)
    (decode : String → Option Msg) (store : RedisChatMessageStore)
    (db : RedisDB) (m : Msg) (hdec : ∀ x, decode (encode x) = some x) :
    (list_messages decode store (clear store db).1.2).1
        = Except.ok ([] : List Msg)
    ∧ serialize_state (clear store db).1.1 = serialize_state store
    ∧ (clear store db).2 = [RedisOp.del (redis_key store)]
    ∧ (list_messages decode store
          (add_messages encode store (clear store db).1.2 [m]).1).1
        = Except.ok [m] := by
  refine ⟨?_, rfl, rfl, ?_⟩
  · show decodeAll decode (rangeSlice
        (delDB db (redis_key store) (redis_key store)) 0 (-1)) = _
    rw [delDB_key, rangeSlice_all]
    rfl
  · show decodeAll decode (rangeSlice
        ((add_messages encode store (delDB db (redis_key store)) [m]).1
          (redis_key store)) 0 (-1)) = _
    rw [add_single_on_empty encode store _ m (delDB_key db (redis_key store)),
      rangeSlice_all]
    simp only [decodeAll, hdec m]

/-- C6 witness: clearing a concrete populated database and appending one
message afterwards. -/
theorem c6_witness :
    (list_messages decB sampleStore (clear sampleStore corruptDB).1.2).1
        = Except.ok ([] : List Bool)
    ∧ serialize_state (clear sampleStore corruptDB).1.1
        = serialize_state sampleStore
    ∧ (clear sampleStore corruptDB).2 = [RedisOp.del (redis_key sampleStore)]
    ∧ (list_messages decB sampleStore
          (add_messages encB sampleStore (clear sampleStore corruptDB).1.2
            [true]).1).1
        = Except.ok [true] :=
  c6_clear_preserves_identity encB decB sampleStore corruptDB true (by decide)

/-- C7: importing the exported configuration of `s` into a fresh instance
`f` on the same connection target succeeds and yields an instance that
addresses the same fully-qualified key with the same maximum, so its
`list_messages` output on any database equals that of `s`. -/
theorem c7_config_roundtrip {Msg : Type} (decode : String → Option Msg)
    (s f : RedisChatMessageStore) (hurl : f.redis_url = s.redis_url) :
    ∃ f2, deserialize_state f (serialize_state s) = Except.ok f2
      ∧ redis_key f2 = redis_key s
      ∧ f2.max_messages = s.max_messages
      ∧ ∀ db : RedisDB,
          list_messages decode f2 db = list_messages decode s db := by
  refine ⟨{ f with
      thread_id := s.thread_id
      keyPrefix := s.keyPrefix
      max_messages := s.max_messages }, ?_, rfl, rfl, ?_⟩
  · have hv : validateState (serialize_state s)
        = some ⟨s.thread_id, some s.redis_url, s.keyPrefix, s.max_messages⟩ := by
      unfold serialize_state
      cases s.max_messages <;> rfl
    unfold deserialize_state
    rw [if_neg (by simp [serialize_state])]
    simp only [hv]
    have hcond : ¬ (¬ (s.redis_url.isEmpty = true) ∧ ¬ (s.redis_url = f.redis_url)) := by
      rw [hurl]
      simp
    rw [if_neg hcond]
  · intro db
    simp only [list_messages, redis_key]

/-- C7 witness: a freshly constructed store with its own identity adopts
`sampleStore`'s configuration. -/
theorem c7_witness :
    ∃ f2, deserialize_state freshStore (serialize_state sampleStore)
        = Except.ok f2
      ∧ redis_key f2 = redis_key sampleStore
      ∧ f2.max_messages = sampleStore.max_messages
      ∧ ∀ db : RedisDB,
          list_messages decB f2 db = list_messages decB sampleStore db :=
  c7_config_roundtrip decB sampleStore freshStore rfl

/-- C8: if any stored entry fails to decode, the whole read fails with the
corrupt-entry error — no skip-and-continue, no partial result, even when
other entries decode successfully. -/
theorem c8_corrupt_entry_fatal {Msg : Type} (decode : String → Option Msg)
    (store : RedisChatMessageStore) (db : RedisDB) (e : String)
    (hmem : e ∈ db (redis_key store)) (hbad : decode e = none) :
    (list_messages decode store db).1
      = Except.error StoreError.corruptEntryError := by
  show decodeAll decode (rangeSlice (db (redis_key store)) 0 (-1)) = _
  rw [rangeSlice_all]
  exact decodeAll_mem_none decode _ e hmem hbad

/-- C8 witness: a stored list holding one decodable entry and one
undecodable entry fails as a whole. -/
theorem c8_witness :
    (list_messages decB sampleStore corruptDB).1
      = Except.error StoreError.corruptEntryError :=
  c8_corrupt_entry_fatal decB sampleStore corruptDB "zz" (by decide) rfl

/-- C9: a caller-supplied empty thread identifier is falsy and is replaced
by the generated `thread_` identifier, exactly as when none is supplied. -/
theorem c9_empty_thread_id (url kp : String) (mm : Option Nat)
    (uuid : String) :
    mkStore (some url) (some "") kp mm uuid = mkStore (some url) none kp mm uuid
    ∧ ∃ s, (mkStore (some url) (some "") kp mm uuid).1 = Except.ok s
        ∧ s.thread_id = "thread_" ++ uuid :=
  ⟨rfl, ⟨_, rfl, rfl⟩⟩

/-- C10: the full serialized document always carries an empty `messages`
list (it does not read the remote store at all) and the whole configuration
under `store_metadata`. -/
theorem c10_serialize_empty_messages (store : RedisChatMessageStore) :
    (serialize store).messages = []
    ∧ (serialize store).store_metadata = serialize_state store :=
  ⟨rfl, rfl⟩

end RedisStore
